import Mathlib

/-!
Verification of the mensabot message-command dispatcher, order ledger and
menu-extraction pipeline (src/main.go), as a shallow embedding in Lean 4.

Modelling conventions:
* Go strings are modelled as Lean `String` / `List Char`; Go's `strings`
  library calls are embedded as explicit recursive functions matching the
  Go semantics (left-to-right, non-overlapping replacement, etc.).
* The Go regular expressions `REG_EXP_*` of main.go are word-boundary keyword
  matchers of the form `(?i)(?:^|\W)(kw1|kw2|...)(?:$|\W)`; they are embedded
  as an executable scan that looks for one of the keywords occurring at a
  position whose neighbours are string boundaries or non-word characters,
  compared case-insensitively.  Case folding is modelled as ASCII `Char.toLower`
  (the keyword sets are ASCII).
* `panic` in the Go source (and Go runtime faults such as an out-of-range
  index) are modelled as `Except.error`.
* External collaborators (the Mattermost client, the HTML scraping library,
  `rand.Intn`) enter as parameters: a username lookup `String → String`, a
  fetch result `Except String (List DishNode)`, and a random index `Nat`.
-/

/-- Word characters in the sense of Go's RE2 `\w`, i.e. `[0-9A-Za-z_]`. -/
def isWordChar (c : Char) : Bool := c.isAlphanum || c = '_'

/-- Lower-case a character list (models `strings.ToLower` on the ASCII range). -/
def lowerList (l : List Char) : List Char := l.map Char.toLower

/-- Lower-case a string (models `strings.ToLower` on the ASCII range). -/
def lowerStr (s : String) : String := String.mk (lowerList s.toList)

/-- Does `l` start with the list `n` (character-by-character, case-sensitive)? -/
def startsWithList : List Char → List Char → Bool
  | [], _ => true
  | _ :: _, [] => false
  | a :: as, b :: bs => a = b && startsWithList as bs

/-- Does the haystack `hay` contain `needle` as a contiguous substring?
Models Go's `strings.Contains`. -/
def containsSub : List Char → List Char → Bool
  | hay, needle =>
    startsWithList needle hay ||
      match hay with
      | [] => false
      | _ :: t => containsSub t needle

/-- The keyword `kw` (stored lower-case) matches at the head of `s`
case-insensitively, and is followed by end-of-string or a non-word
character (the regex tail `(?:$|\W)`). -/
def kwAt : List Char → List Char → Bool
  | [], rest => rest.isEmpty || !isWordChar (rest.headD 'a')
  | _ :: _, [] => false
  | k :: ks, c :: cs => (c.toLower = k) && kwAt ks cs

/-- Scan `s` for an occurrence of one of the keywords `kws` at a position
preceded by start-of-string or a non-word character (`prevB` records whether
the previous character was such a boundary). -/
def wordScan (kws : List (List Char)) (prevB : Bool) : List Char → Bool
  | [] => false
  | c :: cs => (prevB && kws.any (fun kw => kwAt kw (c :: cs))) || wordScan kws (!isWordChar c) cs

/-- Models `regexp.MatchString` for the patterns
`(?i)(?:^|\W)(kw1|...|kwN)(?:$|\W)` of main.go. -/
def wordMatch (kws : List String) (s : List Char) : Bool :=
  wordScan (kws.map String.toList) true s

/-- Matcher of `REG_EXP_STATUS`. -/
def regExpStatus (s : List Char) : Bool := wordMatch ["alive", "running", "up"] s

/-- Matcher of `REG_EXP_HELP` (the pattern `command(|s)` denotes the two
alternatives `command` and `commands`). -/
def regExpHelp (s : List Char) : Bool := wordMatch ["command", "commands", "help"] s

/-- Matcher of `REG_EXP_LEGEND`. -/
def regExpLegend (s : List Char) : Bool :=
  wordMatch ["legend", "legende", "zusatzstoff", "zusatzstoffe", "nummer", "nummern"] s

/-- Matcher of `REG_EXP_TODAY`. -/
def regExpToday (s : List Char) : Bool := wordMatch ["heute", "today", "hunger"] s

/-- Matcher of `REG_EXP_TOMORROW`. -/
def regExpTomorrow (s : List Char) : Bool := wordMatch ["morgen", "tomorrow"] s

/-- Matcher of `REG_EXP_THANKS`. -/
def regExpThanks (s : List Char) : Bool := wordMatch ["dank", "danke", "thank", "thanks"] s

/-- The four order sub-command literals, in the order they appear in the
alternation of `REG_EXP_ORDER`. -/
def orderCmds : List String := ["open", "submit", "list", "close"]

/-- Capture of `REG_EXP_ORDER = ^@\w+ order (?P<command>open|submit|list|close) ?(?P<content>.*)$`:
returns `some (command, content)` when the message matches, `none` otherwise.
`^`/`$` anchor at the ends of the text and `.` does not match a newline
(Go default, no `(?m)`/`(?s)` flags), so a matched message contains no
newline after the command.  The alternation has no prefix overlaps, so the
matching command is unique; the greedy ` ?` consumes one space before the
content capture when present. -/
def regExpOrderParse (s : List Char) : Option (String × String) :=
  match s with
  | '@' :: rest =>
    let w := rest.takeWhile isWordChar
    if w.isEmpty then none
    else
      let t := rest.drop w.length
      if startsWithList " order ".toList t then
        let u := t.drop 7
        match orderCmds.find? (fun c => startsWithList c.toList u) with
        | some c =>
          let v := u.drop c.toList.length
          if v.contains '\n' then none
          else
            let content := if v.headD 'x' = ' ' && !v.isEmpty then v.drop 1 else v
            some (c, String.mk content)
        | none => none
      else none
  | _ => none

/-- Models `REG_EXP_ORDER.MatchString`. -/
def regExpOrderMatch (s : List Char) : Bool := (regExpOrderParse s).isSome

/-- The order-ledger fields of the `mensabot` struct: `orderUser`,
`orderDetail`, and the submission map `orders`.  The Go map is modelled as an
association list; Go map iteration order is unspecified, the model fixes the
insertion order (the spec leaves listing row order open). -/
structure OrderState where
  orderUser : String
  orderDetail : String
  orders : List (String × String)
deriving Repr, DecidableEq

/-- Zero value of the order-ledger fields of a fresh `mensabot` (Closed). -/
def initialState : OrderState := ⟨"", "", []⟩

/-- The inbound post fields the handlers read: `post.Id`, `post.ChannelId`,
`post.UserId`, `post.Message`. -/
structure Post where
  id : String
  channelId : String
  userId : String
  message : String
deriving Repr, DecidableEq

/-- One `bot.sendMessage(msg, channelID, replyToID)` call: the outbound
reply text, its channel, and the threading root (`post.RootId`). -/
structure Reply where
  msg : String
  channelId : String
  rootId : String
deriving Repr, DecidableEq

/-- Go map assignment `m[k] = v`: overwrite in place if the key is present,
otherwise add the binding. -/
def mapInsert : List (String × String) → String → String → List (String × String)
  | [], k, v => [(k, v)]
  | (k', v') :: rest, k, v =>
    if k' = k then (k, v) :: rest else (k', v') :: mapInsert rest k v

/-- Models `strings.Replace(content, "|", "", -1)`. -/
def stripPipes (s : String) : String := String.mk (s.toList.filter (fun c => c ≠ '|'))

/-- The `| @user | order |` rows accumulated by the loops of the `list` and
`close` branches of `handleOrder` (the Go `msg += ...` loop concatenates one
row per map entry, in iteration order). -/
def ordersTable (gu : String → String) : List (String × String) → String
  | [] => ""
  | (u, o) :: rest => "| @" ++ gu u ++ " | " ++ o ++ " |\n" ++ ordersTable gu rest

/-- Message built by the `list` branch of `handleOrder`. -/
def listMsg (gu : String → String) (st : OrderState) : String :=
  "**[Active order]** " ++ st.orderDetail ++ "\n\n" ++ "| User | Order |\n" ++ "| -- | -- |\n"
    ++ ordersTable gu st.orders

/-- Message built by the `close` branch of `handleOrder`. -/
def closeMsg (gu : String → String) (st : OrderState) : String :=
  "**Closing** active order:\n\n" ++ "| User | Order |\n" ++ "| -- | -- |\n"
    ++ ordersTable gu st.orders

/-- The `switch cmd` body of `mensabot.handleOrder` (main.go:375-437), acting
on the captured `command`/`content`.  `gu` models `bot.client.GetUser(...).Username`.
Returns the updated ledger state and the list of `sendMessage` calls made. -/
def handleOrderCmd (gu : String → String) (st : OrderState) (post : Post)
    (cmd content : String) : OrderState × List Reply :=
  if cmd = "open" then
    if st.orderDetail ≠ "" then
      if st.orderUser = post.userId then
        ({ st with orderDetail := content },
         [⟨"Updated order details", post.channelId, post.id⟩])
      else
        (st, [⟨"Not overwriting active order", post.channelId, post.id⟩])
    else
      ({ orderUser := post.userId, orderDetail := content, orders := [] },
       [⟨"#FoodOrder opened by @" ++ gu post.userId ++ ": " ++ content, post.channelId, post.id⟩])
  else if cmd = "submit" then
    if st.orderDetail = "" then
      (st, [⟨"Cannot submit without active order", post.channelId, post.id⟩])
    else
      ({ st with orders := mapInsert st.orders post.userId (stripPipes content) }, [])
  else if cmd = "list" then
    if st.orderDetail = "" then
      (st, [⟨"Cannot list without active order", post.channelId, post.id⟩])
    else
      (st, [⟨listMsg gu st, post.channelId, post.id⟩])
  else if cmd = "close" then
    if st.orderDetail ≠ "" && st.orderUser ≠ post.userId then
      (st, [⟨"Only @" ++ gu st.orderUser ++ " can close the active order", post.channelId, post.id⟩])
    else if st.orderDetail ≠ "" then
      ({ st with orderUser := "", orderDetail := "" },
       [⟨closeMsg gu st, post.channelId, post.id⟩])
    else
      (st, [])
  else
    (st, [])

/-- Embedding of `mensabot.handleOrder` (main.go:358-439): extract `command`/`content`
from the message via `REG_EXP_ORDER` (when the regex does not match, the
captures stay empty and the switch selects no case), then run the switch. -/
def handleOrder (gu : String → String) (st : OrderState) (post : Post) :
    OrderState × List Reply :=
  match regExpOrderParse post.message.toList with
  | none => (st, [])
  | some (cmd, content) => handleOrderCmd gu st post cmd content

/-- Characters trimmed by `strings.Trim(name, " \t\n")`. -/
def cutChar (c : Char) : Bool := c = ' ' || c = '\t' || c = '\n'

/-- Models `strings.Trim(name, " \t\n")`: remove leading and trailing cut
characters. -/
def trimChars (l : List Char) : List Char :=
  ((l.dropWhile cutChar).reverse.dropWhile cutChar).reverse

/-- Models `strings.Replace(s, [p1,p2], [r], -1)` for the two-character
patterns of `trimNodeName`: scan left to right, replacing each
non-overlapping occurrence of the pair `p1 p2` by the single character `r`. -/
def replace2 (p1 p2 r : Char) : List Char → List Char
  | [] => []
  | [c] => [c]
  | c1 :: c2 :: rest =>
    if c1 = p1 && c2 = p2 then r :: replace2 p1 p2 r rest
    else c1 :: replace2 p1 p2 r (c2 :: rest)

/-- Embedding of `trimNodeName` (main.go:125-133): trim surrounding whitespace, then
replace all `"( "`→`"("`, `" )"`→`")"`, `" ,"`→`","`, `"  "`→`" "`,
in that order. -/
def trimNodeName (s : String) : String :=
  String.mk (replace2 ' ' ' ' ' '
    (replace2 ' ' ',' ','
      (replace2 ' ' ')' ')'
        (replace2 '(' ' ' '(' (trimChars s.toList)))))

/-- The dish record (main.go:58-68).  The Go `[3]string` price array is a
`List String` whose length is 3 by construction. -/
structure dish where
  name : String
  prices : List String
  isVegetarian : Bool
  isVegan : Bool
  containsBeef : Bool
  containsPork : Bool
  containsFish : Bool
  containsChicken : Bool
  lactoseFree : Bool
deriving Repr, DecidableEq

/-- Embedding of `dish.isFavorite` (main.go:84-92): lower-case the dish name and test
whether it contains any configured favorites entry (the entry itself is
compared verbatim, not lower-cased).  `favs` models `CONFIG.Favorites`. -/
def isFavorite (favs : List String) (name : String) : Bool :=
  favs.any (fun f => containsSub (lowerList name.toList) f.toList)

/-- Embedding of `dish.String` (main.go:94-123): the markdown table row for one dish. -/
def dishString (favs : List String) (d : dish) : String :=
  "| " ++ d.name ++ " |"
    ++ (if isFavorite favs d.name then " :heart_eyes:" else "")
    ++ (if d.isVegan then " :sunflower:" else if d.isVegetarian then " :carrot:" else "")
    ++ (if d.containsBeef then " :cow2:" else "")
    ++ (if d.containsPork then " :pig2:" else "")
    ++ (if d.containsFish then " :fish:" else "")
    ++ (if d.containsChicken then " :rooster:" else "")
    ++ (if d.lactoseFree then " :milk_glass:" else "")
    ++ " |"
    ++ " " ++ d.prices.getD 0 "" ++ " // " ++ d.prices.getD 1 "" ++ " // " ++ d.prices.getD 2 "" ++ " |"

/-- One dish-description node as seen by `dishFromNode`, abstracting the
scraping library: `text` is `scrape.Text(node)`, `priceTexts` the texts of
`scrape.FindAll(node.Parent, scrape.ByClass("price"))` in document order, and
`imgTitles` the `title` attributes of `scrape.FindAll(node, scrape.ByTag(atom.Img))`. -/
structure DishNode where
  text : String
  priceTexts : List String
  imgTitles : List String
deriving Repr, DecidableEq

/-- The non-breaking space U+00A0, whose UTF-8 bytes are the `"\xc2\xa0"`
stripped from price texts. -/
def nbsp : Char := Char.ofNat 160

/-- Models `strings.Replace(text, "\xc2\xa0", "", -1)`. -/
def stripNbsp (s : String) : String := String.mk (s.toList.filter (fun c => c ≠ nbsp))

/-- Write `v` at index `i` of the list, or `none` when `i` is out of range
(a Go array write `prices[i] = v` panics out of range). -/
def writeAt : List String → Nat → String → Option (List String)
  | [], _, _ => none
  | _ :: xs, 0, v => some (v :: xs)
  | x :: xs, n + 1, v => (writeAt xs n v).map (fun ys => x :: ys)

/-- The `for i, price := range priceNodes { prices[i] = ... }` loop of
`dishFromNode`, starting from index `i` over the remaining price texts. -/
def fillPrices : List String → Nat → List String → Option (List String)
  | acc, _, [] => some acc
  | acc, i, t :: ts =>
    match writeAt acc i (stripNbsp t) with
    | none => none
    | some acc2 => fillPrices acc2 (i + 1) ts

/-- Fill the zero-valued `[3]string` price array from the price-node texts. -/
def setPrices (ts : List String) : Option (List String) :=
  fillPrices ["", "", ""] 0 ts

/-- Embedding of `dishFromNode` (main.go:135-174).  The image-title switch sets each flag
when some title lower-cases to its keyword; the dish is built with
`isVegetarian || isVegan` in the vegetarian field.  A price-array write out
of range is a Go runtime panic, modelled as `Except.error`. -/
def dishFromNode (n : DishNode) : Except String dish :=
  let name := trimNodeName n.text
  let titles := n.imgTitles.map lowerStr
  match setPrices n.priceTexts with
  | none => Except.error "runtime error: index out of range"
  | some prices =>
    let isVegetarian := titles.contains "vegetarisch"
    let isVegan := titles.contains "vegan"
    Except.ok
      { name := name
        prices := prices
        isVegetarian := isVegetarian || isVegan
        isVegan := isVegan
        containsBeef := titles.contains "mit rind"
        containsPork := titles.contains "mit schwein"
        containsFish := titles.contains "mit fisch"
        containsChicken := titles.contains "mit geflügel"
        lactoseFree := titles.contains "laktosefrei" }

/-- Embedding of `getCanteenPlan` (main.go:176-193).  `fetch` models the combined outcome
of `http.Get` + `html.Parse` + locating the dish-description nodes; on
failure the Go code panics, modelled as the error propagating. -/
def getCanteenPlan (fetch : Except String (List DishNode)) : Except String (List dish) := do
  let nodes ← fetch
  nodes.mapM dishFromNode

/-- The dish rows written by the loop of `writeDishes`. -/
def dishLines (favs : List String) : List dish → String
  | [] => ""
  | d :: rest => dishString favs d ++ "\n" ++ dishLines favs rest

/-- Embedding of `mensabot.writeDishes` (main.go:345-356): the full table message. -/
def writeDishes (favs : List String) (dishes : List dish) (pre : String) : String :=
  pre ++ "\n\n" ++ "| Essen | Features | Preise |\n" ++ "| -- | -- | -- |\n"
    ++ dishLines favs dishes

/-- Message of `mensabot.writeLegend` (main.go:441-478). -/
def legendText : String :=
  "**Legende:**\n" ++
    ":heart_eyes: = Lieblingsgericht\n" ++
    ":sunflower: = Veganes Gericht\n" ++
    ":carrot: = Vegetarisches Gericht\n" ++
    ":cow2: = Enthält Rindfleisch\n" ++
    ":pig2: = Enthält Schweinefleisch\n" ++
    ":fish: = Enthält Fisch\n" ++
    ":rooster: = Enthält Geflügel\n" ++
    ":milk_glass: = Laktose**freies**(!) Gericht\n\n" ++
    "**Zusatzstoffe:**\n" ++
    "1 = Farbstoffe\n" ++
    "2 = Konservierungsstoffe\n" ++
    "3 = Antioxidationsmittel\n" ++
    "4 = Geschmacksverstärker\n" ++
    "5 = Geschwefelt\n" ++
    "6 = Geschwärzt\n" ++
    "7 = Gewachst\n" ++
    "8 = Phosphat\n" ++
    "9 = Süßungsmittel\n" ++
    "10 = Phenylalaninquelle\n" ++
    "14 = enthält glutenhaltiges Getreide (z. B. Weizen, Roggen, Gerste etc.)\n" ++
    "15 = Krebstiere und Krebstiererzeugnisse\n" ++
    "16 = Ei und Eierzeugnisse\n" ++
    "17 = Fisch und Fischerzeugnisse\n" ++
    "18 = Erdnüsse und Erdnusserzeugnisse\n" ++
    "19 = Soja und Sojaerzeugnisse\n" ++
    "20 = Milch und Milcherzeugnisse (einschl. Laktose)\n" ++
    "21 = Schalenfrüchte (z.B. Mandel, Haselnüsse, Walnuss etc.)\n" ++
    "22 = Sellerie und Sellerieerzeugnisse\n" ++
    "23 = Senf und Senferzeugnisse\n" ++
    "24 = Sesamsamen und Sesamsamenerzeugnisse\n" ++
    "25 = Schwefeldioxid und Sulfite (Konzentration über 10mg/kg oder 10mg/l)\n" ++
    "26 = Lupine und - erzeugnisse\n" ++
    "27 = Mollusken/Weichtiere (z.B. Muscheln und Weinbergschnecken)\n"

/-- Message of `mensabot.writeHelp` (main.go:480-492). -/
def helpText : String :=
  "**Need help?** These are my supported commands:\n\n" ++
    "| Command | Keyword(s) (completely case insensitive)|\n" ++
    "| -- | -- |\n" ++
    "| Status | alive, running, up |\n" ++
    "| Today's canteen plan | heute, today, hunger |\n" ++
    "| Tomorrow's canteen plan | morgen, tomorrow |\n" ++
    "| Order controls | order [open, submit, list, close] |\n" ++
    "| Legend | legend(e), zusatzstoff(e), nummer(n) |\n" ++
    "| This help message | command(s), help |\n"

/-- Response pool of `mensabot.writeMyPleasure` (main.go:494-500). -/
def pleasureMsgs : List String :=
  ["My pleasure", "You are very welcome", "Dafür nicht", "Immer gern"]

/-- Embedding of `mensabot.handleCommand` (main.go:502-529): the sequential else-if chain
over the matchers, first match wins.  `fetchT`/`fetchM` model the today and
tomorrow canteen fetches, `rnd` the `rand.Intn(len(msgs))` draw of
`writeMyPleasure`.  A fetch failure panics in Go, modelled as `Except.error`
(the reply list is then never produced). -/
def handleCommand (fetchT fetchM : Except String (List DishNode)) (favs : List String)
    (gu : String → String) (rnd : Nat) (st : OrderState) (post : Post) :
    Except String (OrderState × List Reply) :=
  let s := post.message.toList
  if regExpStatus s then
    Except.ok (st, [⟨"Yes I'm up and running!", post.channelId, post.id⟩])
  else if regExpToday s then
    match getCanteenPlan fetchT with
    | Except.error e => Except.error e
    | Except.ok dishes =>
      Except.ok (st, [⟨writeDishes favs dishes "**Heute gibt es:**", post.channelId, post.id⟩])
  else if regExpTomorrow s then
    match getCanteenPlan fetchM with
    | Except.error e => Except.error e
    | Except.ok dishes =>
      Except.ok (st, [⟨writeDishes favs dishes "**Morgen gibt es:**", post.channelId, post.id⟩])
  else if regExpOrderMatch s then
    Except.ok (handleOrder gu st post)
  else if regExpLegend s then
    Except.ok (st, [⟨legendText, post.channelId, post.id⟩])
  else if regExpHelp s then
    Except.ok (st, [⟨helpText, post.channelId, post.id⟩])
  else if regExpThanks s then
    Except.ok (st, [⟨pleasureMsgs.getD (rnd % pleasureMsgs.length) "", post.channelId, post.id⟩])
  else
    Except.ok (st, [⟨"**What does this even mean?!** (Type 'help' to get a list of available commands)", post.channelId, post.id⟩])

/-- The classifier intents of spec §3/§4.4. -/
inductive Intent where
  | status | menuToday | menuTomorrow | order | legend | help | thanks | unrecognized
deriving Repr, DecidableEq

/-- The branch selected by `handleCommand`'s else-if chain, as an intent:
the Command Classifier view of main.go:502-529. -/
def classify (s : List Char) : Intent :=
  if regExpStatus s then Intent.status
  else if regExpToday s then Intent.menuToday
  else if regExpTomorrow s then Intent.menuTomorrow
  else if regExpOrderMatch s then Intent.order
  else if regExpLegend s then Intent.legend
  else if regExpHelp s then Intent.help
  else if regExpThanks s then Intent.thanks
  else Intent.unrecognized

/-- Modelled from the spec (§4.4): the ordered list of (matcher, intent)
pairs "evaluate in the fixed order Status → Menu-today → Menu-tomorrow →
Order → Legend → Help → Thanks". -/
def intentTable : List ((List Char → Bool) × Intent) :=
  [(regExpStatus, Intent.status), (regExpToday, Intent.menuToday),
   (regExpTomorrow, Intent.menuTomorrow), (regExpOrderMatch, Intent.order),
   (regExpLegend, Intent.legend), (regExpHelp, Intent.help),
   (regExpThanks, Intent.thanks)]

/-- Modelled from the spec (§9): "an explicit ordered list of (pattern,
intent) pairs evaluated in a defined sequence" — return the intent of the
first matching pair. -/
def firstIntent : List ((List Char → Bool) × Intent) → List Char → Intent
  | [], _ => Intent.unrecognized
  | (m, i) :: rest, s => if m s then i else firstIntent rest s

/-- Modelled from the spec (§4.4): act on the first matching group only,
falling back to Unrecognized. -/
def specFirstIntent (s : List Char) : Intent :=
  firstIntent intentTable s

/-- Modelled from the spec (C7's reading of §4.4): the order pattern with the
leading mention required to name the bot, i.e. the text has the shape
`@<botMention> order <open|submit|list|close> <rest-of-line>` where the
mention word equals the bot's name. -/
def specOrderAddressed (bot : String) (s : List Char) : Bool :=
  regExpOrderMatch s &&
    match s with
    | '@' :: rest => rest.takeWhile isWordChar = bot.toList
    | _ => false

/-- The substring `sub` occurs contiguously in `l`. -/
def occursIn (sub l : List Char) : Prop := ∃ pre suf, l = pre ++ sub ++ suf

/-- Modelled from the spec (C9): favorite iff the name contains some
favorites entry under case-insensitive comparison of both sides. -/
def ciFavorite (favs : List String) (name : String) : Prop :=
  ∃ f ∈ favs, occursIn (lowerList f.toList) (lowerList name.toList)

/-- Does the two-character pattern `p1 p2` occur at adjacent positions? -/
def hasAdj (p1 p2 : Char) : List Char → Bool
  | [] => false
  | [_] => false
  | c1 :: c2 :: rest => (c1 = p1 && c2 = p2) || hasAdj p1 p2 (c2 :: rest)

/-- The Closed/Open disjunction of spec §3: owner and description both empty,
or both non-empty. -/
def ledgerInv (st : OrderState) : Prop :=
  (st.orderUser = "" ∧ st.orderDetail = "") ∨ (st.orderUser ≠ "" ∧ st.orderDetail ≠ "")

-- Scratch checks of the planned counterexamples.
example :
    (handleOrderCmd (fun _ => "x") ⟨"u1", "pizza", []⟩ ⟨"p1", "ch", "u2", ""⟩ "submit" "Margherita").2
      = [] := by decide
example :
    (handleOrderCmd (fun _ => "x") ⟨"u1", "pizza", []⟩ ⟨"p1", "ch", "u1", ""⟩ "open" "").1
      = ⟨"u1", "", []⟩ := by decide
example :
    (handleOrderCmd (fun _ => "x") ⟨"u1", "pizza", [("u2", "Margherita")]⟩ ⟨"p1", "ch", "u1", ""⟩
      "close" "").1.orders = [("u2", "Margherita")] := by decide
example : trimNodeName "a   b" = "a  b" := by decide
example : trimNodeName "a  b" = "a b" := by decide
example : isFavorite ["Pizza"] "Pizza" = false := by decide
example : isFavorite ["pizza"] "Pizza" = true := by decide
example : dishFromNode ⟨"X", ["1", "2", "3", "4"], []⟩
    = Except.error "runtime error: index out of range" := rfl
example : classify "@alice order open pizza".toList = Intent.order := by decide
example : specOrderAddressed "mensabot" "@alice order open pizza".toList = false := by decide
example : classify "help today".toList = Intent.menuToday := by decide
example : classify "no clue what".toList = Intent.unrecognized := by decide
example : specFirstIntent "help today".toList = Intent.menuToday := by decide

lemma regExpOrderParse_cmd_mem {s : List Char} {cmd content : String}
    (h : regExpOrderParse s = some (cmd, content)) : cmd ∈ orderCmds := by
  unfold regExpOrderParse at h
  split at h <;> try simp at h
  all_goals try (split at h <;> try simp at h)
  all_goals try (split at h <;> try simp at h)
  all_goals obtain ⟨-, -, -, rfl, -⟩ := h
  all_goals exact List.mem_of_find?_eq_some ‹_›

/-- C1 counterexample: a successful `submit` on an open order emits no reply at
all — the handler stores the submission and sends nothing — refuting "exactly
one reply message" for every accepted order sub-command. -/
theorem submit_emits_no_reply :
    (handleOrder (fun _ => "alice") ⟨"u1", "pizza", []⟩
        ⟨"p1", "ch", "u2", "@bot order submit Margherita"⟩).2 = [] ∧
    (handleOrder (fun _ => "alice") ⟨"u1", "pizza", []⟩
        ⟨"p1", "ch", "u2", "@bot order submit Margherita"⟩).2.length ≠ 1 := by decide

/-- C1 (amended): every accepted order sub-command emits replies threaded to
the triggering message (its channel and its post id), and emits exactly one
reply — except a successful `submit` on an open order and a `close` when no
order is active, each of which emits none. -/
theorem order_reply_discipline (gu : String → String) (st : OrderState) (post : Post)
    (cmd content : String) (h : regExpOrderParse post.message.toList = some (cmd, content)) :
    (∀ r ∈ (handleOrder gu st post).2, r.channelId = post.channelId ∧ r.rootId = post.id) ∧
    (handleOrder gu st post).2.length =
      (if (cmd = "submit" ∧ st.orderDetail ≠ "") ∨ (cmd = "close" ∧ st.orderDetail = "")
        then 0 else 1) := by
  have hmem := regExpOrderParse_cmd_mem h
  unfold handleOrder
  rw [h]
  simp only [orderCmds, List.mem_cons, List.not_mem_nil, or_false] at hmem
  rcases hmem with rfl | rfl | rfl | rfl
  · by_cases hd : st.orderDetail = ""
    · simp [handleOrderCmd, hd]
    · by_cases hu : st.orderUser = post.userId <;> simp [handleOrderCmd, hd, hu]
  · by_cases hd : st.orderDetail = "" <;> simp [handleOrderCmd, hd]
  · by_cases hd : st.orderDetail = "" <;> simp [handleOrderCmd, hd]
  · by_cases hd : st.orderDetail = ""
    · simp [handleOrderCmd, hd]
    · by_cases hu : st.orderUser = post.userId <;> simp [handleOrderCmd, hd, hu]

/-- Witness for `order_reply_discipline`: an `open` on the closed ledger emits
exactly one reply, threaded to the triggering post. -/
theorem order_reply_discipline_witness :
    (∀ r ∈ (handleOrder (fun _ => "alice") initialState
        ⟨"p1", "ch", "u1", "@bot order open pizza"⟩).2,
      r.channelId = (⟨"p1", "ch", "u1", "@bot order open pizza"⟩ : Post).channelId ∧
        r.rootId = (⟨"p1", "ch", "u1", "@bot order open pizza"⟩ : Post).id) ∧
    (handleOrder (fun _ => "alice") initialState
        ⟨"p1", "ch", "u1", "@bot order open pizza"⟩).2.length =
      (if ("open" = "submit" ∧ initialState.orderDetail ≠ "") ∨
          ("open" = "close" ∧ initialState.orderDetail = "") then 0 else 1) :=
  order_reply_discipline (fun _ => "alice") initialState
    ⟨"p1", "ch", "u1", "@bot order open pizza"⟩ "open" "pizza" (by decide)

/-- C2 counterexample: from the Closed state, an `open` carrying empty content
(message `"@bot order open"`) produces a state with a non-empty owner and an
empty description — neither Closed nor Open in the spec's sense, refuting the
invariant for "any content string including the empty string". -/
theorem empty_open_breaks_inv :
    (handleOrder (fun _ => "alice") initialState ⟨"p1", "ch", "u1", "@bot order open"⟩).1
        = ⟨"u1", "", []⟩ ∧
    ¬ ledgerInv ⟨"u1", "", []⟩ := by
  refine ⟨by decide, ?_⟩
  simp [ledgerInv]

/-- C2 (amended): the initial state satisfies the Closed/Open disjunction, and
every order transition preserves it provided the acting user id is non-empty
and an `open` command carries non-empty content (with empty open content the
code reaches a state with non-empty owner and empty description). -/
theorem ledger_inv_preserved :
    ledgerInv initialState ∧
    ∀ (gu : String → String) (st : OrderState) (post : Post) (cmd content : String),
      ledgerInv st → post.userId ≠ "" → (cmd = "open" → content ≠ "") →
      ledgerInv (handleOrderCmd gu st post cmd content).1 := by
  refine ⟨Or.inl ⟨rfl, rfl⟩, ?_⟩
  intro gu st post cmd content hinv hu hopen
  have huser : st.orderDetail ≠ "" → st.orderUser ≠ "" := by
    intro hd
    rcases hinv with ⟨-, h2⟩ | ⟨h1, -⟩
    · exact absurd h2 hd
    · exact h1
  by_cases h1 : cmd = "open"
  · subst h1
    by_cases hd : st.orderDetail = ""
    · simp only [handleOrderCmd, if_pos rfl, hd, ne_eq, not_true_eq_false, if_false,
        reduceIte]
      exact Or.inr ⟨hu, hopen rfl⟩
    · by_cases hu2 : st.orderUser = post.userId
      · simp only [handleOrderCmd, if_pos rfl, hd, ne_eq, not_false_eq_true, if_true, hu2,
          reduceIte]
        exact Or.inr ⟨hu2 ▸ hu, hopen rfl⟩
      · simp only [handleOrderCmd, if_pos rfl, hd, ne_eq, not_false_eq_true, if_true, hu2,
          reduceIte]
        exact hinv
  · by_cases h2 : cmd = "submit"
    · subst h2
      by_cases hd : st.orderDetail = "" <;>
        simp_all [handleOrderCmd, ledgerInv]
    · by_cases h3 : cmd = "list"
      · subst h3
        by_cases hd : st.orderDetail = "" <;>
          simp_all [handleOrderCmd, ledgerInv]
      · by_cases h4 : cmd = "close"
        · subst h4
          by_cases hd : st.orderDetail = ""
          · simp_all [handleOrderCmd, ledgerInv]
          · by_cases hu2 : st.orderUser = post.userId <;>
              simp_all [handleOrderCmd, ledgerInv]
        · simp_all [handleOrderCmd, ledgerInv]

/-- Witness for `ledger_inv_preserved`: a fresh `open` with non-empty content
by a non-empty user yields a state satisfying the disjunction. -/
theorem ledger_inv_preserved_witness :
    ledgerInv (handleOrderCmd (fun _ => "alice") initialState
      ⟨"p1", "ch", "u1", "@bot order open pizza"⟩ "open" "pizza").1 :=
  ledger_inv_preserved.2 (fun _ => "alice") initialState
    ⟨"p1", "ch", "u1", "@bot order open pizza"⟩ "open" "pizza"
    ledger_inv_preserved.1 (by decide) (fun _ => by decide)

lemma occursIn_append_left {sub l : List Char} (pre : List Char) (h : occursIn sub l) :
    occursIn sub (pre ++ l) := by
  obtain ⟨a, b, rfl⟩ := h
  exact ⟨pre ++ a, b, by simp⟩

lemma strToList_append (a b : String) : (a ++ b).toList = a.toList ++ b.toList :=
  String.data_append a b

lemma ordersTable_row (gu : String → String) :
    ∀ (m : List (String × String)) (p : String × String), p ∈ m →
      occursIn ("| @" ++ gu p.1 ++ " | " ++ p.2 ++ " |\n").toList (ordersTable gu m).toList
  | [], p, hp => absurd hp (List.not_mem_nil p)
  | q :: rest, p, hp => by
    rcases List.mem_cons.mp hp with rfl | hp'
    · refine ⟨[], (ordersTable gu rest).toList, ?_⟩
      simp [ordersTable, strToList_append]
    · obtain ⟨a, b, hab⟩ := ordersTable_row gu rest p hp'
      refine ⟨("| @" ++ gu q.1 ++ " | " ++ q.2 ++ " |\n").toList ++ a, b, ?_⟩
      simp only [String.toList, String.data_append, List.append_assoc] at hab ⊢
      simp [ordersTable, String.data_append, hab]

/-- C3 counterexample: `close` by the owner does not clear the submission map —
the stored submission survives into the post-close state (only the next `open`
resets the map). -/
theorem close_keeps_submission_map :
    (handleOrder (fun _ => "alice") ⟨"u1", "pizza", [("u2", "Margherita")]⟩
        ⟨"p1", "ch", "u1", "@bot order close"⟩).1.orders = [("u2", "Margherita")] := by decide

/-- C3 (amended): when the owner of an open order issues `close`, the handler
emits exactly one reply, the final listing containing one table row per stored
submission, and clears the owner and the description (back to Closed) — but
leaves the submission map in place. -/
theorem close_by_owner (gu : String → String) (st : OrderState) (post : Post) (content : String)
    (hd : st.orderDetail ≠ "") (hown : post.userId = st.orderUser) :
    handleOrderCmd gu st post "close" content
      = (⟨"", "", st.orders⟩, [⟨closeMsg gu st, post.channelId, post.id⟩]) ∧
    ∀ p ∈ st.orders,
      occursIn ("| @" ++ gu p.1 ++ " | " ++ p.2 ++ " |\n").toList (closeMsg gu st).toList := by
  constructor
  · simp [handleOrderCmd, hd, hown]
  · intro p hp
    have h2 := ordersTable_row gu st.orders p hp
    have h3 := occursIn_append_left
      ("**Closing** active order:\n\n".toList ++ "| User | Order |\n".toList
        ++ "| -- | -- |\n".toList) h2
    have he : (closeMsg gu st).toList
        = ("**Closing** active order:\n\n".toList ++ "| User | Order |\n".toList
            ++ "| -- | -- |\n".toList) ++ (ordersTable gu st.orders).toList := by
      simp [closeMsg, strToList_append]
    rw [he]
    exact h3

/-- Witness for `close_by_owner`: the owner closing an order with one stored
submission gets the final listing containing that submission's row, and the
owner and description are cleared while the map is retained. -/
theorem close_by_owner_witness :
    (handleOrderCmd (fun u => u) ⟨"u1", "pizza", [("u2", "Margherita")]⟩
        ⟨"p1", "ch", "u1", "@bot order close"⟩ "close" ""
      = (⟨"", "", [("u2", "Margherita")]⟩,
         [⟨closeMsg (fun u => u) ⟨"u1", "pizza", [("u2", "Margherita")]⟩, "ch", "p1"⟩])) ∧
    ∀ p ∈ [("u2", "Margherita")],
      occursIn ("| @" ++ p.1 ++ " | " ++ p.2 ++ " |\n").toList
        (closeMsg (fun u => u) ⟨"u1", "pizza", [("u2", "Margherita")]⟩).toList :=
  close_by_owner (fun u => u) ⟨"u1", "pizza", [("u2", "Margherita")]⟩
    ⟨"p1", "ch", "u1", "@bot order close"⟩ "" (by decide) (by decide)

/-- C4: the code, not the claim, is at fault here — when the canteen fetch
fails, `handleCommand` on a menu request propagates the failure (the Go code
panics in `getCanteenPlan`, modelled as `Except.error`): the process
terminates and no reply is produced, instead of the failure being converted
into a single user-visible error reply. -/
theorem fetch_error_panics :
    handleCommand (Except.error "connection refused") (Except.ok []) []
        (fun _ => "x") 0 initialState ⟨"p1", "ch", "u1", "heute"⟩
      = Except.error "connection refused" := rfl

lemma wordScan_mono {kw : List Char} {kws : List (List Char)} (hmem : kw ∈ kws) :
    ∀ (b : Bool) (s : List Char), wordScan [kw] b s = true → wordScan kws b s = true
  | b, [], h => by simp [wordScan] at h
  | b, c :: cs, h => by
    simp only [wordScan, Bool.or_eq_true, Bool.and_eq_true, List.any_eq_true] at h ⊢
    rcases h with ⟨hb, w, hw, hk⟩ | h
    · obtain rfl := List.mem_singleton.mp hw
      exact Or.inl ⟨hb, w, hmem, hk⟩
    · exact Or.inr (wordScan_mono hmem (!isWordChar c) cs h)

lemma wordMatch_mono {w : String} {ws : List String} (hmem : w ∈ ws) {s : List Char}
    (h : wordMatch [w] s = true) : wordMatch ws s = true := by
  unfold wordMatch at h ⊢
  exact wordScan_mono (List.mem_map_of_mem String.toList hmem) true s h

/-- C5: the classifier equals the first match over the fixed ordered table
Status, Menu-today, Menu-tomorrow, Order, Legend, Help, Thanks, Unrecognized;
concretely, a text containing both "today" and "help" as whole words and no
Status keyword classifies as Menu-today, not Help. -/
theorem classifier_precedence :
    (∀ s, classify s = specFirstIntent s) ∧
    (∀ s, regExpStatus s = false → wordMatch ["today"] s = true →
      wordMatch ["help"] s = true → classify s = Intent.menuToday) := by
  constructor
  · intro s
    rfl
  · intro s h1 ht _
    have h2 : regExpToday s = true := wordMatch_mono (by decide) ht
    simp [classify, h1, h2]

/-- Witness for `classifier_precedence`: the text "help today" contains both
keywords as whole words, matches no Status keyword, and classifies as
Menu-today. -/
theorem classifier_precedence_witness :
    classify "help today".toList = Intent.menuToday :=
  classifier_precedence.2 "help today".toList (by decide) (by decide) (by decide)

/-- C7 counterexample: the message "@alice order open pizza" is classified as
an Order command although its leading mention does not name the bot (here
called "mensabot"): `REG_EXP_ORDER` accepts any `@\w+` prefix, so the Order
intent is not restricted to texts addressed at the bot by name. -/
theorem order_without_bot_mention :
    classify "@alice order open pizza".toList = Intent.order ∧
    specOrderAddressed "mensabot" "@alice order open pizza".toList = false := by decide

/-- C7 (amended): the Order intent is produced exactly for the texts matching
`^@\w+ order (open|submit|list|close) ?.*$` on which no earlier keyword group
(Status, Menu-today, Menu-tomorrow) fires; the leading mention may be any
word, not necessarily the bot's name (addressing is enforced upstream by the
dispatcher's mention filter, except in the debug channel). -/
theorem classify_order_iff (s : List Char) :
    classify s = Intent.order ↔
      (regExpStatus s = false ∧ regExpToday s = false ∧ regExpTomorrow s = false ∧
        regExpOrderMatch s = true) := by
  unfold classify
  by_cases h1 : regExpStatus s <;> by_cases h2 : regExpToday s <;>
    by_cases h3 : regExpTomorrow s <;> by_cases h4 : regExpOrderMatch s <;>
    by_cases h5 : regExpLegend s <;> by_cases h6 : regExpHelp s <;>
    by_cases h7 : regExpThanks s <;>
    simp [h1, h2, h3, h4, h5, h6, h7]

/-- Witness for `classify_order_iff`: instantiated at "@alice order open
pizza", whose classification is Order. -/
theorem classify_order_iff_witness :
    classify "@alice order open pizza".toList = Intent.order :=
  (classify_order_iff "@alice order open pizza".toList).mpr
    ⟨by decide, by decide, by decide, by decide⟩

lemma replace2_id (p1 p2 r : Char) :
    ∀ l : List Char, hasAdj p1 p2 l = false → replace2 p1 p2 r l = l
  | [], _ => rfl
  | [_], _ => rfl
  | c1 :: c2 :: rest, h => by
    have h' : (decide (c1 = p1) && decide (c2 = p2)) = false
        ∧ hasAdj p1 p2 (c2 :: rest) = false := by
      simpa [hasAdj] using h
    unfold replace2
    rw [h'.1]
    simp only [Bool.false_eq_true, if_false]
    exact congrArg (c1 :: ·) (replace2_id p1 p2 r (c2 :: rest) h'.2)

lemma trimChars_idem (l : List Char) : trimChars (trimChars l) = trimChars l := by
  have hdef : ∀ x : List Char,
      trimChars x = List.rdropWhile cutChar (List.dropWhile cutChar x) := fun _ => rfl
  rw [hdef, hdef]
  have h1 : List.dropWhile cutChar (List.rdropWhile cutChar (List.dropWhile cutChar l))
      = List.rdropWhile cutChar (List.dropWhile cutChar l) := by
    rw [List.dropWhile_eq_self_iff]
    intro hl
    have hpre : List.rdropWhile cutChar (List.dropWhile cutChar l)
        <+: List.dropWhile cutChar l := List.rdropWhile_prefix _ _
    have hlen : 0 < (List.dropWhile cutChar l).length :=
      lt_of_lt_of_le hl hpre.length_le
    have hg : (List.rdropWhile cutChar (List.dropWhile cutChar l)).get ⟨0, hl⟩
        = (List.dropWhile cutChar l).get ⟨0, hlen⟩ := by
      simpa [List.get_eq_getElem] using hpre.getElem hl
    rw [hg]
    exact List.dropWhile_get_zero_not cutChar l hlen
  rw [h1, List.rdropWhile_idempotent]

/-- C6 counterexample: on `"a   b"` (three internal spaces) the normalization
is not idempotent — one pass yields `"a  b"`, a second pass `"a b"`: the
left-to-right pairwise replacement only halves a space run per pass instead
of collapsing it to one space. -/
theorem trimNodeName_not_idempotent :
    trimNodeName (trimNodeName "a   b") ≠ trimNodeName "a   b" ∧
    trimNodeName "a   b" = "a  b" ∧ trimNodeName (trimNodeName "a   b") = "a b" := by decide

/-- C6 (amended): the normalization is not idempotent in general; it is
idempotent on every string whose trimmed form contains no occurrence of
`"( "`, `" )"`, `" ,"` or `"  "` (on such strings one pass is the identity
after trimming). -/
theorem trimNodeName_idempotent_of_clean (s : String)
    (h1 : hasAdj '(' ' ' (trimChars s.toList) = false)
    (h2 : hasAdj ' ' ')' (trimChars s.toList) = false)
    (h3 : hasAdj ' ' ',' (trimChars s.toList) = false)
    (h4 : hasAdj ' ' ' ' (trimChars s.toList) = false) :
    trimNodeName (trimNodeName s) = trimNodeName s := by
  have key : trimNodeName s = String.mk (trimChars s.toList) := by
    unfold trimNodeName
    rw [replace2_id '(' ' ' '(' (trimChars s.toList) h1,
      replace2_id ' ' ')' ')' (trimChars s.toList) h2,
      replace2_id ' ' ',' ',' (trimChars s.toList) h3,
      replace2_id ' ' ' ' ' ' (trimChars s.toList) h4]
  rw [key]
  unfold trimNodeName
  have ht : (String.mk (trimChars s.toList)).toList = trimChars s.toList := rfl
  rw [ht, trimChars_idem]
  rw [replace2_id '(' ' ' '(' (trimChars s.toList) h1,
    replace2_id ' ' ')' ')' (trimChars s.toList) h2,
    replace2_id ' ' ',' ',' (trimChars s.toList) h3,
    replace2_id ' ' ' ' ' ' (trimChars s.toList) h4]

/-- Witness for `trimNodeName_idempotent_of_clean`: a clean dish name is a
fixed point of the normalization. -/
theorem trimNodeName_idempotent_witness :
    trimNodeName (trimNodeName "Pasta (vegan), lecker")
      = trimNodeName "Pasta (vegan), lecker" :=
  trimNodeName_idempotent_of_clean "Pasta (vegan), lecker"
    (by decide) (by decide) (by decide) (by decide)

lemma setPrices_le (ts : List String) (h : ts.length ≤ 3) :
    ∃ r, setPrices ts = some r ∧ r.length = 3 ∧
      ∀ j, ts.length ≤ j → j < 3 → r.getD j "x" = "" := by
  rcases ts with _ | ⟨a, _ | ⟨b, _ | ⟨c, rest⟩⟩⟩
  · exact ⟨["", "", ""], rfl, rfl, by intro j h1 h2; interval_cases j <;> rfl⟩
  · refine ⟨[stripNbsp a, "", ""], rfl, rfl, ?_⟩
    intro j h1 h2
    have h1' : 1 ≤ j := by simpa using h1
    interval_cases j <;> rfl
  · refine ⟨[stripNbsp a, stripNbsp b, ""], rfl, rfl, ?_⟩
    intro j h1 h2
    have h1' : 2 ≤ j := by simpa using h1
    interval_cases j
    rfl
  · have hrest : rest = [] := by
      simp only [List.length_cons] at h
      exact List.eq_nil_of_length_eq_zero (by omega)
    subst hrest
    refine ⟨[stripNbsp a, stripNbsp b, stripNbsp c], rfl, rfl, ?_⟩
    intro j h1 h2
    simp only [List.length_cons, List.length_nil] at h1
    omega

lemma setPrices_gt (ts : List String) (h : 3 < ts.length) : setPrices ts = none := by
  rcases ts with _ | ⟨a, _ | ⟨b, _ | ⟨c, _ | ⟨d, rest⟩⟩⟩⟩ <;> simp_all
  rfl

/-- C8: a dish node whose container holds fewer than 3 price elements still
yields a dish with exactly 3 price-tier strings, each missing tier being the
empty string. -/
theorem dish_prices_fixed_arity (n : DishNode) (h : n.priceTexts.length < 3) :
    ∃ d, dishFromNode n = Except.ok d ∧ d.prices.length = 3 ∧
      ∀ j, n.priceTexts.length ≤ j → j < 3 → d.prices.getD j "x" = "" := by
  obtain ⟨r, hr, hlen, hfill⟩ := setPrices_le n.priceTexts (Nat.le_of_lt h)
  unfold dishFromNode
  rw [hr]
  exact ⟨_, rfl, hlen, hfill⟩

/-- Witness for `dish_prices_fixed_arity`: a node with one price element gets
a 3-entry price list with tiers 1 and 2 empty. -/
theorem dish_prices_fixed_arity_witness :
    ∃ d, dishFromNode ⟨"Gericht", ["2,40"], []⟩ = Except.ok d ∧ d.prices.length = 3 ∧
      ∀ j, (⟨"Gericht", ["2,40"], []⟩ : DishNode).priceTexts.length ≤ j → j < 3 →
        d.prices.getD j "x" = "" :=
  dish_prices_fixed_arity ⟨"Gericht", ["2,40"], []⟩ (by decide)

/-- C10 counterexample: a dish node whose container holds 4 price elements
makes the extraction fail with an out-of-range write (`prices[3]` into a
`[3]string`), refuting "never fails with an out-of-range access regardless of
how many price elements the container holds". -/
theorem four_prices_out_of_range :
    dishFromNode ⟨"Gericht", ["1,00", "2,00", "3,00", "4,00"], []⟩
      = Except.error "runtime error: index out of range" := rfl

/-- C10 (amended): dish extraction stays within the bounds of the 3-slot
price array exactly when the container holds at most 3 price elements; with
4 or more, it fails with an out-of-range access. -/
theorem dishFromNode_inbounds_iff (n : DishNode) :
    (∃ d, dishFromNode n = Except.ok d) ↔ n.priceTexts.length ≤ 3 := by
  constructor
  · rintro ⟨d, hd⟩
    by_contra hlen
    push_neg at hlen
    unfold dishFromNode at hd
    rw [setPrices_gt _ hlen] at hd
    exact absurd hd (by simp)
  · intro hlen
    obtain ⟨r, hr, -, -⟩ := setPrices_le n.priceTexts hlen
    unfold dishFromNode
    rw [hr]
    exact ⟨_, rfl⟩

/-- Witness for `dishFromNode_inbounds_iff`: a 1-price node extracts. -/
theorem dishFromNode_inbounds_witness :
    ∃ d, dishFromNode ⟨"Gericht", ["1,00"], []⟩ = Except.ok d :=
  (dishFromNode_inbounds_iff ⟨"Gericht", ["1,00"], []⟩).mpr (by decide)

lemma startsWithList_iff (n h : List Char) :
    startsWithList n h = true ↔ ∃ t, h = n ++ t := by
  induction n generalizing h with
  | nil =>
    simp only [startsWithList, List.nil_append, true_iff]
    exact ⟨h, rfl⟩
  | cons a as ih =>
    cases h with
    | nil => simp [startsWithList]
    | cons b bs =>
      simp only [startsWithList, Bool.and_eq_true, decide_eq_true_eq, ih,
        List.cons_append, List.cons.injEq]
      constructor
      · rintro ⟨rfl, t, rfl⟩
        exact ⟨t, rfl, rfl⟩
      · rintro ⟨t, rfl, rfl⟩
        exact ⟨rfl, t, rfl⟩

lemma containsSub_iff (hay needle : List Char) :
    containsSub hay needle = true ↔ ∃ pre suf, hay = pre ++ needle ++ suf := by
  induction hay with
  | nil =>
    have hstep : containsSub [] needle = startsWithList needle [] := by
      simp [containsSub]
    rw [hstep, startsWithList_iff]
    constructor
    · rintro ⟨t, ht⟩
      exact ⟨[], t, ht⟩
    · rintro ⟨pre, suf, hps⟩
      obtain ⟨hpn, -⟩ := List.append_eq_nil.mp hps.symm
      obtain ⟨-, hn⟩ := List.append_eq_nil.mp hpn
      exact ⟨[], by simp [hn]⟩
  | cons c cs ih =>
    have hstep : containsSub (c :: cs) needle
        = (startsWithList needle (c :: cs) || containsSub cs needle) := rfl
    rw [hstep]
    simp only [Bool.or_eq_true, startsWithList_iff, ih]
    constructor
    · rintro (⟨t, ht⟩ | ⟨pre, suf, hcs⟩)
      · exact ⟨[], t, by simpa using ht⟩
      · exact ⟨c :: pre, suf, by simp [hcs]⟩
    · rintro ⟨pre, suf, hps⟩
      cases pre with
      | nil => exact Or.inl ⟨suf, by simpa using hps⟩
      | cons p ps =>
        injection hps with h1 h2
        exact Or.inr ⟨ps, suf, h2⟩

/-- C9 counterexample: with the configured favorites entry "Pizza" (capital
P), the dish named "Pizza" is NOT designated a favorite, although the name
contains the entry under case-insensitive comparison: the code lower-cases
only the dish name, never the list entry. -/
theorem favorite_entry_case_sensitive :
    isFavorite ["Pizza"] "Pizza" = false ∧ ciFavorite ["Pizza"] "Pizza" :=
  ⟨by decide, "Pizza", by decide, [], [], by decide⟩

/-- C9 (amended): a dish is designated a favorite iff its lower-cased name
contains some favorites entry verbatim: the match is insensitive to the case
of the dish name but sensitive to the case of the configured entry. -/
theorem isFavorite_iff (favs : List String) (name : String) :
    isFavorite favs name = true ↔
      ∃ f ∈ favs, ∃ pre suf, lowerList name.toList = pre ++ f.toList ++ suf := by
  unfold isFavorite
  simp [List.any_eq_true, containsSub_iff]

/-- Witness for `isFavorite_iff`: a lower-case entry matches a mixed-case
dish name. -/
theorem isFavorite_iff_witness :
    isFavorite ["pizza"] "Pizza Margherita" = true :=
  (isFavorite_iff ["pizza"] "Pizza Margherita").mpr
    ⟨"pizza", by decide, [], " margherita".toList, by decide⟩

example : regExpOrderParse "@bot order open pizza".toList = some ("open", "pizza") := by decide
example : regExpOrderParse "@bot order close".toList = some ("close", "") := by decide
example : regExpOrderParse "hello @bot order open pizza".toList = none := by decide
example : regExpOrderParse "@alice order submit Margherita x".toList
    = some ("submit", "Margherita x") := by decide
example : regExpStatus "are you up?".toList = true := by decide
example : regExpStatus "update".toList = false := by decide
example : regExpToday "HEUTE!".toList = true := by decide
example : regExpHelp "helpful".toList = false := by decide
